import Mathlib

/-!
Shallow embedding of src/lib/src/image_qrcode/apps/kotik_apps.py, the single
source file of the image-apps repository.  Images are modelled as a color mode
plus a row-major list of pixels, each pixel a list of byte channel values, the
way PIL stores bands.  Fallible Python statements (file opening, unbound local
reads, unsupported PIL conversions, Python type errors) are modelled with
Except.  The per-row loops of the four processors thread the Python local
variable `filename` explicitly as an Option String, none meaning the local is
not yet bound (reading it raises UnboundLocalError in Python).
-/

namespace ImageApps

/-- A decoded in-memory PIL image: a color mode string and the pixel buffer,
one channel-value list per pixel. -/
structure Img where
  mode : String
  pixels : List (List Nat)
deriving DecidableEq

/-- Errors a per-row computation can surface: a missing source file on
Image.open, a read of the unbound Python local, a PIL ValueError, a Python
TypeError, a ZeroDivisionError from ImageStat on an empty image, the
floating-point interior of ImagingBlend (outside this integer embedding), and
PIL conversions between modes this embedding does not cover (the program never
needs them on the claims). -/
inductive Err where
  | fileNotFound (name : String)
  | unboundLocal (var : String)
  | valueError (msg : String)
  | typeError (msg : String)
  | zeroDivision
  | floatBlend
  | unsupportedConversion (src target : String)
deriving DecidableEq

deriving instance DecidableEq for Except

/-- The filesystem the processors read from: maps a file name to the decoded
image, none when opening the file fails (missing, unreadable, bad format). -/
def FS : Type := String → Option Img

/-- PIL Image.open on the modelled filesystem. -/
def openImage (fs : FS) (name : String) : Except Err Img :=
  match fs name with
  | none => .error (Err.fileNotFound name)
  | some img => .ok img

/-- ITU-R 601-2 luma used by PIL for RGB to L conversion:
L = (19595 R + 38470 G + 7471 B + 32768) div 65536, the rounded fixed-point
form of R 299/1000 + G 587/1000 + B 114/1000; alpha is ignored. -/
def luma (p : List Nat) : Nat :=
  (19595 * p.getD 0 0 + 38470 * p.getD 1 0 + 7471 * p.getD 2 0 + 32768) / 65536

/-- PIL convert to RGBA for the modes this program meets: RGBA is copied, RGB
gains an opaque alpha, L is replicated to gray with opaque alpha, LA is
replicated to gray keeping its alpha. -/
def convertToRGBA (img : Img) : Except Err Img :=
  if img.mode = "RGBA" then .ok img
  else if img.mode = "RGB" then
    .ok (Img.mk "RGBA" (img.pixels.map (fun p => [p.getD 0 0, p.getD 1 0, p.getD 2 0, 255])))
  else if img.mode = "L" then
    .ok (Img.mk "RGBA" (img.pixels.map (fun p => [p.getD 0 0, p.getD 0 0, p.getD 0 0, 255])))
  else if img.mode = "LA" then
    .ok (Img.mk "RGBA" (img.pixels.map (fun p => [p.getD 0 0, p.getD 0 0, p.getD 0 0, p.getD 1 0])))
  else .error (Err.unsupportedConversion img.mode "RGBA")

/-- PIL convert to L: RGBA and RGB go through the luma transform (alpha is
dropped), L is copied, LA keeps its gray band and drops alpha. -/
def convertImgToL (img : Img) : Except Err Img :=
  if img.mode = "RGBA" then .ok (Img.mk "L" (img.pixels.map (fun p => [luma p])))
  else if img.mode = "RGB" then .ok (Img.mk "L" (img.pixels.map (fun p => [luma p])))
  else if img.mode = "L" then .ok (Img.mk "L" img.pixels)
  else if img.mode = "LA" then .ok (Img.mk "L" (img.pixels.map (fun p => [p.getD 0 0])))
  else .error (Err.unsupportedConversion img.mode "L")

/-- PIL convert to CMYK as the program invokes it: rgb2cmyk does no black
generation, C = 255 - R, M = 255 - G, Y = 255 - B, K = 0, with RGBA dropping
its alpha first; l2cmyk and la2cmyk put all ink into the K channel,
(0, 0, 0, 255 - L); CMYK is copied. -/
def convertToCMYKimg (img : Img) : Except Err Img :=
  if img.mode = "CMYK" then .ok img
  else if img.mode = "RGB" then
    .ok (Img.mk "CMYK" (img.pixels.map (fun p => [255 - p.getD 0 0, 255 - p.getD 1 0, 255 - p.getD 2 0, 0])))
  else if img.mode = "RGBA" then
    .ok (Img.mk "CMYK" (img.pixels.map (fun p => [255 - p.getD 0 0, 255 - p.getD 1 0, 255 - p.getD 2 0, 0])))
  else if img.mode = "L" then
    .ok (Img.mk "CMYK" (img.pixels.map (fun p => [0, 0, 0, 255 - p.getD 0 0])))
  else if img.mode = "LA" then
    .ok (Img.mk "CMYK" (img.pixels.map (fun p => [0, 0, 0, 255 - p.getD 0 0])))
  else .error (Err.unsupportedConversion img.mode "CMYK")

/-- PIL Image.getchannel and Image.split indexing: band k of every pixel as a
single-band L image. -/
def getBand (img : Img) (k : Nat) : Img :=
  Img.mk "L" (img.pixels.map (fun p => [p.getD k 0]))

/-- PIL Image.point with the source lambda p: 255 if p < 200 else 0, applied
to every channel value (the program applies it to a one-band L image). -/
def pointThreshold (img : Img) : Img :=
  Img.mk img.mode (img.pixels.map (fun p => p.map (fun v => if v < 200 then 255 else 0)))

/-- PIL Image.merge of mode LA from two one-band images. -/
def mergeLA (l a : Img) : Img :=
  Img.mk "LA" (List.zipWith (fun pl pa => [pl.getD 0 0, pa.getD 0 0]) l.pixels a.pixels)

/-- PIL convert of an LA image to RGBA: the gray value is replicated into R, G
and B and the alpha band is kept. -/
def convertLAtoRGBA (img : Img) : Img :=
  Img.mk "RGBA" (img.pixels.map (fun p => [p.getD 0 0, p.getD 0 0, p.getD 0 0, p.getD 1 0]))

/-- The MULDIV255 macro of the Pillow C sources: the rounded byte product,
computed as two shifts of a b + 128; on byte inputs it equals the product
divided by 255, rounded to nearest. -/
def muldiv255 (a b : Nat) : Nat :=
  ((a * b + 128) / 256 + (a * b + 128)) / 256

/-- One pixel of the cmyk2rgb converter of the Pillow C sources: with
nk = 255 - K, each of R, G and B is nk minus the rounded byte product of the
ink value with nk; the fourth byte is filled with 255 (putalpha replaces it
when calling this conversion). -/
def cmyk2rgbPix (p : List Nat) : List Nat :=
  [255 - p.getD 3 0 - muldiv255 (p.getD 0 0) (255 - p.getD 3 0),
   255 - p.getD 3 0 - muldiv255 (p.getD 1 0) (255 - p.getD 3 0),
   255 - p.getD 3 0 - muldiv255 (p.getD 2 0) (255 - p.getD 3 0),
   255]

/-- PIL Image.putalpha.  For RGB, RGBA, L and LA images the alpha band is set
or replaced in place.  For a CMYK image the target is the alpha variant of
the base mode of CMYK, which is RGB, so Pillow converts the pixel data back
through cmyk2rgb and sets the alpha band on the resulting RGBA image: the
call succeeds but the image is RGBA afterwards, not CMYK.  Remaining modes
are outside this embedding. -/
def putalpha (img alpha : Img) : Except Err Img :=
  if img.mode = "RGBA" then
    .ok (Img.mk "RGBA" (List.zipWith (fun p a => [p.getD 0 0, p.getD 1 0, p.getD 2 0, a.getD 0 0]) img.pixels alpha.pixels))
  else if img.mode = "RGB" then
    .ok (Img.mk "RGBA" (List.zipWith (fun p a => [p.getD 0 0, p.getD 1 0, p.getD 2 0, a.getD 0 0]) img.pixels alpha.pixels))
  else if img.mode = "LA" then
    .ok (Img.mk "LA" (List.zipWith (fun p a => [p.getD 0 0, a.getD 0 0]) img.pixels alpha.pixels))
  else if img.mode = "L" then
    .ok (Img.mk "LA" (List.zipWith (fun p a => [p.getD 0 0, a.getD 0 0]) img.pixels alpha.pixels))
  else if img.mode = "CMYK" then
    .ok (Img.mk "RGBA" (List.zipWith (fun p a =>
      [(cmyk2rgbPix p).getD 0 0, (cmyk2rgbPix p).getD 1 0, (cmyk2rgbPix p).getD 2 0, a.getD 0 0])
      img.pixels alpha.pixels))
  else .error (Err.unsupportedConversion img.mode (img.mode ++ "A"))

/-- Lines 160 to 163 of convert_to_cmyk: the alpha channel is extracted if and
only if the decoded image mode is exactly the string RGBA. -/
def cmykAlphaExtracted (img : Img) : Option Img :=
  if img.mode = "RGBA" then some (getBand img 3) else none

/-- Lines 160 to 170 of convert_to_cmyk: extract alpha when the mode is RGBA,
convert to CMYK, then put the alpha back on the CMYK image if one was
extracted (a PIL Image is always truthy, so the Python `if alpha:` test is
exactly the option match). -/
def cmykAlphaBlock (img : Img) : Except Err Img :=
  let alpha := cmykAlphaExtracted img
  match convertToCMYKimg img with
  | .error e => .error e
  | .ok cmyk =>
    match alpha with
    | some a => putalpha cmyk a
    | none => .ok cmyk

/-- Lines 212 to 227 of extract_white_underbase: normalize to RGBA, take the
luminance, take the alpha band, threshold the luminance at 200, merge the
thresholded mask with the original alpha as an LA image and convert back to
RGBA. -/
def underbaseBlock (img0 : Img) : Except Err Img :=
  match convertToRGBA img0 with
  | .error e => .error e
  | .ok img =>
    match convertImgToL img with
    | .error e => .error e
    | .ok grayscale =>
      let alpha := getBand img 3
      let underbase := pointThreshold grayscale
      let merged := mergeLA underbase alpha
      .ok (convertLAtoRGBA merged)

/-- The threshold applied by extract_white_underbase to one luminance value. -/
def thresh (v : Nat) : Nat := if v < 200 then 255 else 0

/-- One row of the convert_to_cmyk loop, lines 156 to 183: open the file, run
the alpha-extract, convert, alpha-reapply block, then build the output name
from the Python local `filename`, which at that point holds the previous
value of the loop (none on the first iteration, where Python raises
UnboundLocalError), not the fileName of the row. -/
def cmykRow (fs : FS) (fileName : String) (filenameVar : Option String) : Except Err (Img × String) :=
  match openImage fs fileName with
  | .error e => .error e
  | .ok img =>
    match cmykAlphaBlock img with
    | .error e => .error e
    | .ok cmyk =>
      match filenameVar with
      | none => .error (Err.unboundLocal "filename")
      | some stale => .ok (cmyk, stale ++ "_CMYK.tiff")

/-- The convert_to_cmyk loop: rows processed in order, the first error aborts
the whole batch, and the Python local `filename` is threaded from one
iteration to the next. -/
def cmykLoop (fs : FS) : List String → Option String → Except Err (List String)
  | [], _ => .ok []
  | fileName :: rest, filenameVar =>
    match cmykRow fs fileName filenameVar with
    | .error e => .error e
    | .ok ics =>
      match cmykLoop fs rest (some ics.2) with
      | .error e => .error e
      | .ok outs => .ok (ics.2 :: outs)

/-- The convert_to_cmyk processor: one output file name per row on success;
the local `filename` starts unbound. -/
def convert_to_cmyk (fs : FS) (rows : List String) : Except Err (List String) :=
  cmykLoop fs rows none

/-- One row of the extract_white_underbase loop, lines 210 to 240: open the
file, run the underbase block, then build the output name from the stale
Python local `filename` exactly as convert_to_cmyk does. -/
def underbaseRow (fs : FS) (fileName : String) (filenameVar : Option String) : Except Err (Img × String) :=
  match openImage fs fileName with
  | .error e => .error e
  | .ok img0 =>
    match underbaseBlock img0 with
    | .error e => .error e
    | .ok ub =>
      match filenameVar with
      | none => .error (Err.unboundLocal "filename")
      | some stale => .ok (ub, stale ++ "_underbase.tiff")

/-- The extract_white_underbase loop, same batch shape as the CMYK loop. -/
def underbaseLoop (fs : FS) : List String → Option String → Except Err (List String)
  | [], _ => .ok []
  | fileName :: rest, filenameVar =>
    match underbaseRow fs fileName filenameVar with
    | .error e => .error e
    | .ok ics =>
      match underbaseLoop fs rest (some ics.2) with
      | .error e => .error e
      | .ok outs => .ok (ics.2 :: outs)

/-- The extract_white_underbase processor. -/
def extract_white_underbase (fs : FS) (rows : List String) : Except Err (List String) :=
  underbaseLoop fs rows none

/-- A Python value carried through the enhance_image loop: the record fields
are a string and two floats, the latter held exactly as rationals and never
consumed arithmetically by the program. -/
inductive PyVal where
  | s (v : String)
  | f (v : Rat)
deriving DecidableEq

/-- One input row of enhance_image as the schema declares it. -/
structure EnhanceRow where
  fileName : String
  contrast : Rat
  saturation : Rat
deriving DecidableEq

/-- One element of pandas to_dict with orient records: a dict from column name
to value, keys in column order fileName, contrast, saturation. -/
def recordDict (r : EnhanceRow) : List (String × PyVal) :=
  [("fileName", PyVal.s r.fileName), ("contrast", PyVal.f r.contrast), ("saturation", PyVal.f r.saturation)]

/-- Python tuple unpacking of a dict: iterating a dict yields its keys, so the
three loop variables of enhance_image are bound to the three key strings, not
to the row values. -/
def unpack3 (d : List (String × PyVal)) : Except Err (String × String × String) :=
  match d with
  | [(k1, _), (k2, _), (k3, _)] => .ok (k1, k2, k3)
  | _ => .error (Err.valueError "unpacking mismatch")

/-- Python str.lower restricted to the ASCII file names this program sees. -/
def pyLower (s : String) : String := String.mk (s.data.map Char.toLower)

/-- Python str.endswith on the character lists of the two strings. -/
def pyEndsWith (s post : String) : Bool := List.isSuffixOf post.data s.data

/-- Lines 100 to 104 of enhance_image: a name ending in .psd goes through
psd_tools compositing, anything else through Image.open; both results are
normalized to RGBA.  The filesystem stores the decoded (for PSD, composited)
image, so both branches read it and convert. -/
def openEnhance (fs : FS) (fileName : String) : Except Err Img :=
  if pyEndsWith (pyLower fileName) ".psd" then
    match fs fileName with
    | none => .error (Err.fileNotFound fileName)
    | some psdComposite => convertToRGBA psdComposite
  else
    match fs fileName with
    | none => .error (Err.fileNotFound fileName)
    | some img => convertToRGBA img

/-- Whether a PIL mode string carries an alpha band. -/
def hasAlphaBand (m : String) : Bool := m = "RGBA" || m = "LA" || m = "PA"

/-- The band index PIL getchannel uses for the alpha band of a mode. -/
def alphaBandIndex (m : String) : Nat := if m = "RGBA" then 3 else 1

/-- PIL convert dispatched on a target mode string, for the conversions the
enhancer degenerates need. -/
def convertMode (target : String) (img : Img) : Except Err Img :=
  if target = "RGBA" then convertToRGBA img
  else if target = "L" then convertImgToL img
  else if target = "CMYK" then convertToCMYKimg img
  else .error (Err.unsupportedConversion img.mode target)

/-- PIL Image.blend as called by ImageEnhance: a TypeError when the factor is
a string (the case this program always hits), an exact copy of the first or
second image at factor 0 or 1 (ImagingBlend special-cases both), and the
floating-point interpolation of the interior marked as outside this integer
embedding. -/
def blend (im1 im2 : Img) (factor : PyVal) : Except Err Img :=
  match factor with
  | PyVal.s _ => .error (Err.typeError "blend factor must be a real number, not str")
  | PyVal.f a =>
    if a = 0 then .ok im1
    else if a = 1 then .ok im2
    else .error Err.floatBlend

/-- The degenerate image built by the ImageEnhance.Contrast constructor: a
constant gray image at the rounded mean of the L conversion, converted to the
source mode, with the source alpha band put back when the mode has one.  The
mean of an empty image divides by zero, as ImageStat does. -/
def contrastDegenerate (img : Img) : Except Err Img :=
  match convertImgToL img with
  | .error e => .error e
  | .ok l =>
    let vals := l.pixels.map (fun p => p.getD 0 0)
    if l.pixels.length = 0 then .error Err.zeroDivision
    else
      let mean := (2 * vals.sum + vals.length) / (2 * vals.length)
      match convertMode img.mode (Img.mk "L" (l.pixels.map (fun _ => [mean]))) with
      | .error e => .error e
      | .ok deg =>
        if hasAlphaBand img.mode then putalpha deg (getBand img (alphaBandIndex img.mode))
        else .ok deg

/-- The degenerate image built by the ImageEnhance.Color constructor: the L
conversion converted back to the source mode, with the source alpha band put
back when the mode has one. -/
def colorDegenerate (img : Img) : Except Err Img :=
  match convertImgToL img with
  | .error e => .error e
  | .ok l =>
    match convertMode img.mode l with
    | .error e => .error e
    | .ok deg =>
      if hasAlphaBand img.mode then putalpha deg (getBand img (alphaBandIndex img.mode))
      else .ok deg

/-- ImageEnhance.Contrast(img).enhance(factor): build the degenerate, then
blend it with the image at the factor. -/
def enhanceContrast (img : Img) (factor : PyVal) : Except Err Img :=
  match contrastDegenerate img with
  | .error e => .error e
  | .ok deg => blend deg img factor

/-- ImageEnhance.Color(img).enhance(factor). -/
def enhanceColor (img : Img) (factor : PyVal) : Except Err Img :=
  match colorDegenerate img with
  | .error e => .error e
  | .ok deg => blend deg img factor

/-- One row of the enhance_image loop, lines 98 to 125: unpack the record
dict (binding the key strings), open, enhance contrast then saturation with
the bound values, and build the output name from the stale local `filename`
like the other loops. -/
def enhanceRow (fs : FS) (r : EnhanceRow) (filenameVar : Option String) : Except Err (Img × String) :=
  match unpack3 (recordDict r) with
  | .error e => .error e
  | .ok (fileName, contrastV, saturationV) =>
    match openEnhance fs fileName with
    | .error e => .error e
    | .ok img =>
      match enhanceContrast img (PyVal.s contrastV) with
      | .error e => .error e
      | .ok img2 =>
        match enhanceColor img2 (PyVal.s saturationV) with
        | .error e => .error e
        | .ok img3 =>
          match filenameVar with
          | none => .error (Err.unboundLocal "filename")
          | some stale => .ok (img3, stale ++ "_enhanced.tiff")

/-- The enhance_image loop, same batch shape as the other loops. -/
def enhanceLoop (fs : FS) : List EnhanceRow → Option String → Except Err (List String)
  | [], _ => .ok []
  | r :: rest, filenameVar =>
    match enhanceRow fs r filenameVar with
    | .error e => .error e
    | .ok ics =>
      match enhanceLoop fs rest (some ics.2) with
      | .error e => .error e
      | .ok outs => .ok (ics.2 :: outs)

/-- The enhance_image processor. -/
def enhance_image (fs : FS) (rows : List EnhanceRow) : Except Err (List String) :=
  enhanceLoop fs rows none

/-- The generate_qr_code loop, lines 36 to 63: the third-party QR encoder is
taken as a parameter, the wall clock as a sequence of timestamp strings
indexed by row position; the output name is the timestamp name, independent
of the URL content. -/
def qrLoop (qrEnc : String → Except Err Img) (stamps : Nat → String) : List String → Nat → Except Err (List String)
  | [], _ => .ok []
  | url :: rest, i =>
    match qrEnc url with
    | .error e => .error e
    | .ok _img =>
      match qrLoop qrEnc stamps rest (i + 1) with
      | .error e => .error e
      | .ok outs => .ok (("qrcode_" ++ stamps i ++ ".png") :: outs)

/-- The generate_qr_code processor. -/
def generate_qr_code (qrEnc : String → Except Err Img) (stamps : Nat → String) (urls : List String) : Except Err (List String) :=
  qrLoop qrEnc stamps urls 0

/-- A one-pixel RGB test image. -/
def imgArtRGB : Img := Img.mk "RGB" [[10, 200, 30]]

/-- A filesystem holding only art.png, an RGB image. -/
def fsArt : FS := fun n => if n = "art.png" then some imgArtRGB else none

/-- A one-pixel fully opaque white RGBA image: luminance 255, alpha 255. -/
def imgWhiteOpaque : Img := Img.mk "RGBA" [[255, 255, 255, 255]]

/-- A two-pixel RGBA image: an opaque dark pixel and a transparent bright
pixel. -/
def imgDarkLight : Img := Img.mk "RGBA" [[20, 20, 20, 255], [250, 250, 250, 0]]

/-- A one-pixel RGBA image for the CMYK alpha tests. -/
def imgRGBAhalf : Img := Img.mk "RGBA" [[10, 20, 30, 128]]

/-- A filesystem holding only a.png, an RGBA image. -/
def fsRGBA : FS := fun n => if n = "a.png" then some imgRGBAhalf else none

/-- A one-pixel RGBA image standing for a decoded logo.png. -/
def imgLogoRGBA : Img := Img.mk "RGBA" [[0, 0, 0, 255]]

/-- A filesystem holding only logo.png; in particular no file is literally
named fileName. -/
def fsLogo : FS := fun n => if n = "logo.png" then some imgLogoRGBA else none

/-- The empty filesystem: every open fails. -/
def fsEmpty : FS := fun _ => none

/-- A one-pixel LA image with a non-trivial alpha. -/
def imgLAsample : Img := Img.mk "LA" [[100, 50]]

/-- A one-pixel RGB image for the determinism witness. -/
def imgC9 : Img := Img.mk "RGB" [[1, 2, 3]]

/-- A trivial QR symbol image standing for a successful encode. -/
def imgQR : Img := Img.mk "L" [[0]]

/-- A QR encoder that succeeds on every URL. -/
def okEnc : String → Except Err Img := fun _ => Except.ok imgQR

/-- A concrete timestamp sequence for the QR witness. -/
def stampsW : Nat → String := fun i => "t" ++ toString i

/-- The enhance_image input row of the spec scenario. -/
def rowLogo : EnhanceRow := EnhanceRow.mk "logo.png" (3 / 2) (6 / 5)

/-- A one-pixel RGBA image with a mid gray and a small alpha, for the alpha
preservation witness. -/
def imgW5 : Img := Img.mk "RGBA" [[100, 100, 100, 7]]

/-- Closed form of the underbase block on an RGBA source: each pixel becomes
the thresholded luminance replicated into R, G and B, with the alpha of the
source pixel kept unchanged.  The theorems below prove the embedded block
equal to this form. -/
def underbaseResult (img : Img) : Img :=
  Img.mk "RGBA" (img.pixels.map (fun p =>
    [thresh (luma p), thresh (luma p), thresh (luma p), p.getD 3 0]))

/-- Closed form of the convert_to_cmyk alpha block on an RGBA source: each
color value goes through rgb2cmyk with K = 0 and back through cmyk2rgb, and
the alpha band is set back to the source alpha band.  The theorems below
prove the embedded block equal to this form. -/
def cmykReapplied (img : Img) : Img :=
  Img.mk "RGBA" (img.pixels.map (fun p =>
    [255 - muldiv255 (255 - p.getD 0 0) 255, 255 - muldiv255 (255 - p.getD 1 0) 255,
     255 - muldiv255 (255 - p.getD 2 0) 255, p.getD 3 0]))

/-- The literal reading of the thresholding claim at one image: every pixel
whose source luminance is strictly below 200 is opaque white in the output
and every other pixel is transparent in the output. -/
def thresholdClaim (img out : Img) : Prop :=
  ∀ i, i < img.pixels.length →
    (luma (img.pixels.getD i []) < 200 → out.pixels.getD i [] = [255, 255, 255, 255]) ∧
    (200 ≤ luma (img.pixels.getD i []) → (out.pixels.getD i []).getD 3 0 = 0)

instance (img out : Img) : Decidable (thresholdClaim img out) := by
  unfold thresholdClaim
  infer_instance

theorem zipWith_map_same {α β γ : Type} (f : β → β → γ) (g h : α → β) (l : List α) :
    List.zipWith f (l.map g) (l.map h) = l.map (fun x => f (g x) (h x)) := by
  induction l with
  | nil => rfl
  | cons a t ih => simp [ih]

/-- Helper: on an RGBA source the underbase block computes the closed form
underbaseResult. -/
theorem underbaseBlock_rgba_eq (img : Img) (h : img.mode = "RGBA") :
    underbaseBlock img = Except.ok (underbaseResult img) := by
  simp [underbaseBlock, convertToRGBA, convertImgToL, h, getBand, pointThreshold, mergeLA,
    convertLAtoRGBA, underbaseResult, zipWith_map_same, List.map_map, Function.comp, thresh]

/-- Helper: a convert_to_cmyk row with the local `filename` still unbound
never succeeds. -/
theorem cmykRow_none_ne_ok (fs : FS) (f : String) (res : Img × String) :
    cmykRow fs f none ≠ Except.ok res := by
  intro h
  cases ho : openImage fs f with
  | error e => simp [cmykRow, ho] at h
  | ok img =>
    cases hb : cmykAlphaBlock img with
    | error e => simp [cmykRow, ho, hb] at h
    | ok cmyk => simp [cmykRow, ho, hb] at h

/-- Helper: an extract_white_underbase row with the local `filename` still
unbound never succeeds. -/
theorem underbaseRow_none_ne_ok (fs : FS) (f : String) (res : Img × String) :
    underbaseRow fs f none ≠ Except.ok res := by
  intro h
  cases ho : openImage fs f with
  | error e => simp [underbaseRow, ho] at h
  | ok img =>
    cases hb : underbaseBlock img with
    | error e => simp [underbaseRow, ho, hb] at h
    | ok ub => simp [underbaseRow, ho, hb] at h

/-- Helper: the contrast enhancement called with a string factor never
succeeds, whatever the degenerate computation does. -/
theorem enhanceContrast_str_ne_ok (img : Img) (s : String) (res : Img) :
    enhanceContrast img (PyVal.s s) ≠ Except.ok res := by
  intro h
  cases hd : contrastDegenerate img with
  | error e => simp [enhanceContrast, hd] at h
  | ok deg => simp [enhanceContrast, hd, blend] at h

/-- Helper: an enhance_image row never succeeds: the loop variables are bound
to the dict key strings, and the enhancement factor is therefore a string. -/
theorem enhanceRow_ne_ok (fs : FS) (r : EnhanceRow) (v : Option String) (res : Img × String) :
    enhanceRow fs r v ≠ Except.ok res := by
  intro h
  cases ho : openEnhance fs "fileName" with
  | error e => simp [enhanceRow, recordDict, unpack3, ho] at h
  | ok img =>
    cases hc : enhanceContrast img (PyVal.s "contrast") with
    | error e => simp [enhanceRow, recordDict, unpack3, ho, hc] at h
    | ok img2 => exact enhanceContrast_str_ne_ok img "contrast" img2 hc

/-- Helper: a successful convert_to_cmyk run can only come from the empty
table, because the first row already fails. -/
theorem cmyk_ok_nil (fs : FS) (rows : List String) (out : List String)
    (h : convert_to_cmyk fs rows = Except.ok out) : rows = [] ∧ out = [] := by
  cases rows with
  | nil =>
    refine ⟨rfl, ?_⟩
    simp only [convert_to_cmyk, cmykLoop, Except.ok.injEq] at h
    exact h.symm
  | cons f rest =>
    exfalso
    simp only [convert_to_cmyk, cmykLoop] at h
    cases hr : cmykRow fs f none with
    | error e => rw [hr] at h; simp at h
    | ok ics => exact cmykRow_none_ne_ok fs f ics hr

/-- Helper: a successful extract_white_underbase run can only come from the
empty table. -/
theorem underbase_ok_nil (fs : FS) (rows : List String) (out : List String)
    (h : extract_white_underbase fs rows = Except.ok out) : rows = [] ∧ out = [] := by
  cases rows with
  | nil =>
    refine ⟨rfl, ?_⟩
    simp only [extract_white_underbase, underbaseLoop, Except.ok.injEq] at h
    exact h.symm
  | cons f rest =>
    exfalso
    simp only [extract_white_underbase, underbaseLoop] at h
    cases hr : underbaseRow fs f none with
    | error e => rw [hr] at h; simp at h
    | ok ics => exact underbaseRow_none_ne_ok fs f ics hr

/-- Helper: a successful enhance_image run can only come from the empty
table. -/
theorem enhance_ok_nil (fs : FS) (rows : List EnhanceRow) (out : List String)
    (h : enhance_image fs rows = Except.ok out) : rows = [] ∧ out = [] := by
  cases rows with
  | nil =>
    refine ⟨rfl, ?_⟩
    simp only [enhance_image, enhanceLoop, Except.ok.injEq] at h
    exact h.symm
  | cons r rest =>
    exfalso
    simp only [enhance_image, enhanceLoop] at h
    cases hr : enhanceRow fs r none with
    | error e => rw [hr] at h; simp at h
    | ok ics => exact enhanceRow_ne_ok fs r none ics hr

/-- Helper: a successful QR loop emits exactly one timestamp file name per
URL, in row order. -/
theorem qrLoop_ok_eq (qrEnc : String → Except Err Img) (stamps : Nat → String) :
    ∀ (urls : List String) (i : Nat) (out : List String),
      qrLoop qrEnc stamps urls i = Except.ok out →
      out = (List.range urls.length).map (fun j => "qrcode_" ++ stamps (i + j) ++ ".png") := by
  intro urls
  induction urls with
  | nil =>
    intro i out h
    simp only [qrLoop, Except.ok.injEq] at h
    simp [← h]
  | cons u rest ih =>
    intro i out h
    simp only [qrLoop] at h
    cases henc : qrEnc u with
    | error e => rw [henc] at h; simp at h
    | ok im =>
      rw [henc] at h
      cases hrec : qrLoop qrEnc stamps rest (i + 1) with
      | error e => rw [hrec] at h; simp at h
      | ok outs =>
        rw [hrec] at h
        simp only [Except.ok.injEq] at h
        have hrest := ih (i + 1) outs hrec
        rw [← h, hrest]
        rw [List.length_cons, List.range_succ_eq_map, List.map_cons, List.map_map]
        congr 1
        apply List.map_congr_left
        intro j hj
        have harg : i + 1 + j = i + (j + 1) := by omega
        simp [Function.comp, harg]

/-- C1: the output file name of a convert_to_cmyk or extract_white_underbase
row is NOT derived from the row fileName: the code reads the local `filename`
before any assignment, so a one-row batch over an existing decodable RGB file
aborts with UnboundLocalError instead of producing art.png_CMYK.tiff, and a
row entered with a stale value of the local produces the stale name plus the
suffix, not the row name plus the suffix. -/
theorem C1_output_name_from_stale_local :
    convert_to_cmyk fsArt ["art.png"] = Except.error (Err.unboundLocal "filename") ∧
    extract_white_underbase fsArt ["art.png"] = Except.error (Err.unboundLocal "filename") ∧
    cmykRow fsArt "art.png" (some "stale") =
      Except.ok (Img.mk "CMYK" [[245, 55, 225, 0]], "stale_CMYK.tiff") ∧
    "stale_CMYK.tiff" ≠ "art.png_CMYK.tiff" := by decide

/-- C2 counterexample: on a fully opaque white one-pixel image the luminance
is 255, at or above the threshold 200, yet the produced pixel is opaque black
with alpha 255, not transparent, so the claim that every pixel at or above
the threshold is transparent in the output is false. -/
theorem C2_threshold_claim_counterexample :
    underbaseBlock imgWhiteOpaque = Except.ok (Img.mk "RGBA" [[0, 0, 0, 255]]) ∧
    ¬ thresholdClaim imgWhiteOpaque (Img.mk "RGBA" [[0, 0, 0, 255]]) := by decide

/-- C2 amended: on an RGBA source every pixel of the produced mask whose
source luminance is strictly below 200 gets mask value 255 (white) and every
other pixel gets mask value 0 (black), replicated into R, G, B; the alpha of
each output pixel is the alpha of the source pixel, so a below-threshold
pixel is opaque white exactly where the source was opaque and an
at-or-above-threshold pixel is transparent exactly where the source was
transparent. -/
theorem C2_threshold_mask_amended (img : Img) (h : img.mode = "RGBA") :
    underbaseBlock img = Except.ok (underbaseResult img) :=
  underbaseBlock_rgba_eq img h

theorem C2_threshold_mask_amended_witness :
    underbaseBlock imgDarkLight = Except.ok (underbaseResult imgDarkLight) :=
  C2_threshold_mask_amended imgDarkLight rfl

/-- C3: the loop of enhance_image tuple-unpacks the record dicts of pandas
to_dict, which binds the three loop variables to the key strings fileName,
contrast and saturation, never to the row values; on the spec scenario row
(logo.png, 1.5, 1.2) over a filesystem that does contain logo.png, the code
tries to open a file literally named fileName and aborts, so no contrast or
saturation scaling with the row multipliers ever happens. -/
theorem C3_row_values_never_used :
    unpack3 (recordDict rowLogo) = Except.ok ("fileName", "contrast", "saturation") ∧
    enhance_image fsLogo [rowLogo] = Except.error (Err.fileNotFound "fileName") ∧
    fsLogo "logo.png" = some imgLogoRGBA := by decide

/-- C4: on the RGBA source a.png the alpha channel is extracted before the
conversion and reapplied afterwards, but putalpha converts the CMYK image
back to RGBA mode (with K = 0 the cmyk2rgb reconversion restores the
original color values), so the in-memory result is the original RGBA image,
whose color data is not in CMYK mode; the row then aborts reading the
unbound local `filename`, so no output carrying the source alpha is ever
saved. -/
theorem C4_cmyk_output_never_saved :
    cmykAlphaExtracted imgRGBAhalf = some (getBand imgRGBAhalf 3) ∧
    cmykAlphaBlock imgRGBAhalf = Except.ok (Img.mk "RGBA" [[10, 20, 30, 128]]) ∧
    (Img.mk "RGBA" [[10, 20, 30, 128]]).mode ≠ "CMYK" ∧
    convert_to_cmyk fsRGBA ["a.png"] = Except.error (Err.unboundLocal "filename") := by decide

/-- C5: on an RGBA source the underbase block succeeds and the alpha band of
the produced output is exactly the alpha band of the source image; the
transform only computes the new luminance-derived mask band. -/
theorem C5_underbase_alpha_preserved (img : Img) (h : img.mode = "RGBA") :
    underbaseBlock img = Except.ok (underbaseResult img) ∧
    getBand (underbaseResult img) 3 = getBand img 3 := by
  refine ⟨underbaseBlock_rgba_eq img h, ?_⟩
  simp [underbaseResult, getBand, List.map_map, Function.comp]

theorem C5_underbase_alpha_preserved_witness :
    underbaseBlock imgW5 = Except.ok (underbaseResult imgW5) ∧
    getBand (underbaseResult imgW5) 3 = getBand imgW5 3 :=
  C5_underbase_alpha_preserved imgW5 rfl

/-- C6: whenever one of the four processors returns a table, that table has
exactly one output row per input row, in input order; for generate_qr_code
the row at position j is the timestamp file name generated for input row j. -/
theorem C6_one_output_row_per_input_row :
    (∀ (qrEnc : String → Except Err Img) (stamps : Nat → String) (urls out : List String),
        generate_qr_code qrEnc stamps urls = Except.ok out →
        out = (List.range urls.length).map (fun j => "qrcode_" ++ stamps j ++ ".png") ∧
        out.length = urls.length) ∧
    (∀ (fs : FS) (rows : List EnhanceRow) (out : List String),
        enhance_image fs rows = Except.ok out → out.length = rows.length) ∧
    (∀ (fs : FS) (rows out : List String),
        convert_to_cmyk fs rows = Except.ok out → out.length = rows.length) ∧
    (∀ (fs : FS) (rows out : List String),
        extract_white_underbase fs rows = Except.ok out → out.length = rows.length) := by
  refine ⟨?_, ?_, ?_, ?_⟩
  · intro qrEnc stamps urls out h
    have h0 := qrLoop_ok_eq qrEnc stamps urls 0 out h
    constructor
    · simpa using h0
    · rw [h0]; simp
  · intro fs rows out h
    obtain ⟨h1, h2⟩ := enhance_ok_nil fs rows out h
    simp [h1, h2]
  · intro fs rows out h
    obtain ⟨h1, h2⟩ := cmyk_ok_nil fs rows out h
    simp [h1, h2]
  · intro fs rows out h
    obtain ⟨h1, h2⟩ := underbase_ok_nil fs rows out h
    simp [h1, h2]

theorem C6_one_output_row_per_input_row_witness :
    ["qrcode_t0.png"] = (List.range (["u"].length)).map (fun j => "qrcode_" ++ stampsW j ++ ".png") ∧
    (["qrcode_t0.png"] : List String).length = (["u"] : List String).length :=
  C6_one_output_row_per_input_row.1 okEnc stampsW ["u"] ["qrcode_t0.png"] (by decide)

/-- C8: when decoding the source file of the first row fails, both
convert_to_cmyk and extract_white_underbase surface exactly that decode error
to the caller; the whole batch is an error, so no output table and no
partial-success result exists. -/
theorem C8_decode_error_aborts_batch (fs : FS) (f : String) (rest : List String)
    (h : fs f = none) :
    convert_to_cmyk fs (f :: rest) = Except.error (Err.fileNotFound f) ∧
    extract_white_underbase fs (f :: rest) = Except.error (Err.fileNotFound f) := by
  constructor
  · simp [convert_to_cmyk, cmykLoop, cmykRow, openImage, h]
  · simp [extract_white_underbase, underbaseLoop, underbaseRow, openImage, h]

theorem C8_decode_error_aborts_batch_witness :
    convert_to_cmyk fsEmpty ["missing.png"] = Except.error (Err.fileNotFound "missing.png") ∧
    extract_white_underbase fsEmpty ["missing.png"] = Except.error (Err.fileNotFound "missing.png") :=
  C8_decode_error_aborts_batch fsEmpty "missing.png" [] rfl

/-- C9: the CMYK conversion block is a pure function of the decoded source
image: on equal non-alpha sources two runs produce equal results, and that
common result is the plain deterministic CMYK conversion of the source (the
embedding carries no clock, randomness or other run-varying state for this
processor). -/
theorem C9_cmyk_conversion_deterministic (img1 img2 : Img) (hm : img1.mode ≠ "RGBA")
    (he : img1 = img2) :
    cmykAlphaBlock img1 = cmykAlphaBlock img2 ∧
    cmykAlphaBlock img1 = convertToCMYKimg img1 := by
  subst he
  refine ⟨rfl, ?_⟩
  simp only [cmykAlphaBlock, cmykAlphaExtracted, if_neg hm]
  cases h : convertToCMYKimg img1 <;> simp

theorem C9_cmyk_conversion_deterministic_witness :
    cmykAlphaBlock imgC9 = cmykAlphaBlock imgC9 ∧
    cmykAlphaBlock imgC9 = convertToCMYKimg imgC9 :=
  C9_cmyk_conversion_deterministic imgC9 imgC9 (by decide) rfl

/-- C10: alpha is extracted, and reapplied, exactly when the decoded mode is
the string RGBA: on an RGBA source the block reapplies the extracted alpha
band unchanged (the color data returning through cmyk2rgb); a source
carrying transparency in any other modelled mode, such as luminance plus
alpha, is converted to plain four-band CMYK with its alpha silently dropped
and nothing reapplied. -/
theorem C10_alpha_handling_only_rgba :
    (∀ img : Img, (cmykAlphaExtracted img).isSome = true ↔ img.mode = "RGBA") ∧
    (∀ img : Img, img.mode = "RGBA" →
      cmykAlphaBlock img = Except.ok (cmykReapplied img) ∧
      getBand (cmykReapplied img) 3 = getBand img 3) ∧
    (∀ img : Img, img.mode = "LA" →
      cmykAlphaBlock img = Except.ok (Img.mk "CMYK" (img.pixels.map (fun p =>
        [0, 0, 0, 255 - p.getD 0 0])))) := by
  refine ⟨?_, ?_, ?_⟩
  · intro img
    by_cases h : img.mode = "RGBA" <;> simp [cmykAlphaExtracted, h]
  · intro img h
    constructor
    · simp [cmykAlphaBlock, cmykAlphaExtracted, convertToCMYKimg, putalpha, getBand,
        cmyk2rgbPix, cmykReapplied, h, zipWith_map_same, List.map_map, Function.comp]
    · simp [cmykReapplied, getBand, List.map_map, Function.comp]
  · intro img h
    simp [cmykAlphaBlock, cmykAlphaExtracted, convertToCMYKimg, h]

theorem C10_alpha_handling_only_rgba_witness :
    cmykAlphaBlock imgLAsample = Except.ok (Img.mk "CMYK" (imgLAsample.pixels.map (fun p =>
      [0, 0, 0, 255 - p.getD 0 0]))) :=
  C10_alpha_handling_only_rgba.2.2 imgLAsample rfl

end ImageApps
